import Mathlib

/-!
Shallow embedding of the MORE liquidation bot (index.js and the modular
sources under src/) and proofs about the claims of its specification.

Conventions of the embedding:
- BigNumber arithmetic is exact integer arithmetic; it is embedded as Nat
  with Nat division as the floor division of BigNumber.div.
- JavaScript floating point quantities (profit estimates in USD) are
  embedded as exact rationals; they enter only comparisons and ratios.
- Timestamps (Date.now()) and addresses are Nat.
- JavaScript Map objects are embedded as association lists with the
  findEntry / setEntry / eraseEntry operations below.
- Asynchronous on-chain reads (oracle, multicall, quotes) are inputs of
  the embedded functions: a fallible read is an Option value, a profit
  estimator is a function argument.
-/

namespace MoreBot

/-! ## Constants from index.js and src/constants.js -/

/-- WeiPerEther, the 1e18 scale of health factors. -/
def WeiPerEther : ℕ := 10 ^ 18

/-- CLOSE_FACTOR from index.js line 1896: at most 50 percent of the debt
may be repaid in one liquidation. -/
def closeFactorPct : ℕ := 50

/-- INTEREST_BUFFER_BPS from index.js lines 605 and 1903. -/
def interestBufferBps : ℕ := 10

/-- CONSERVATIVE_FACTOR from index.js line 117 (99 percent). -/
def conservativeFactorPct : ℕ := 99

/-- FLASH_LOAN_PREMIUM_BPS from index.js line 118 (0.05 percent). -/
def flashLoanPremiumBps : ℕ := 5

/-- STABLEKITTY_SLIPPAGE_BPS from src/constants.js (0.5 percent). -/
def stableKittySlippageBps : ℕ := 50

/-- MIN_DEBT_USD, config.min_debt_usd with default 1 (index.js line 121). -/
def minDebtUsd : ℕ := 1

/-- CACHE_TTL_MS from index.js line 453 (price cache, 5 seconds). -/
def cacheTtlMs : ℕ := 5000

/-- BLACKLIST_TTL_MS from index.js line 543 (5 minutes). -/
def blacklistTtlMs : ℕ := 300000

/-- MAX_FAILURES_BEFORE_BLACKLIST from index.js line 542. -/
def maxFailuresBeforeBlacklist : ℕ := 3

/-- Hot position eviction window from index.js line 1775 (5 minutes). -/
def hotEvictionMs : ℕ := 300000

/-- LIQUIDATION_PERCENTAGES from index.js line 589. -/
def liquidationPercentages : List ℕ := [10, 25, 50]

/-! ## Association list operations embedding JavaScript Map -/

/-- Lookup in an association list (Map.get). -/
def findEntry {α : Type} : List (ℕ × α) → ℕ → Option α
  | [], _ => none
  | (k, v) :: rest, u => if k = u then some v else findEntry rest u

/-- Insert or replace in an association list (Map.set). -/
def setEntry {α : Type} : List (ℕ × α) → ℕ → α → List (ℕ × α)
  | [], u, v => [(u, v)]
  | (k, w) :: rest, u, v =>
    if k = u then (u, v) :: rest else (k, w) :: setEntry rest u v

/-- Removal from an association list (Map.delete). -/
def eraseEntry {α : Type} (m : List (ℕ × α)) (u : ℕ) : List (ℕ × α) :=
  m.filter (fun p => !(p.1 == u))

/-! ## Debt-to-cover construction (claim C1)

index.js lines 1894-1904 (full-scan path), 1996-2000 (liquidity
adjustment), 600-606 and 868-873 (adaptive prepared path) and 1285 with
1337 (batch prepared path). -/

/-- maxLiquidatable from index.js line 1897: floor of half the debt. -/
def maxLiquidatable (userDebt : ℕ) : ℕ :=
  userDebt * closeFactorPct / 100

/-- The 0.1 percent interest buffer, index.js line 1904:
debtToCover.mul(10000n + INTEREST_BUFFER_BPS).div(10000n). -/
def withInterestBuffer (d : ℕ) : ℕ :=
  d * (10000 + interestBufferBps) / 10000

/-- Full-scan debtToCover, index.js lines 1898-1904: cap the debt at the
pool's receipt-token balance, cap at the close factor, add the buffer. -/
def fullScanDebtToCover (userDebt debtBalanceInmToken : ℕ) : ℕ :=
  let d0 := if debtBalanceInmToken < userDebt then debtBalanceInmToken else userDebt
  let d1 := if maxLiquidatable userDebt < d0 then maxLiquidatable userDebt else d0
  withInterestBuffer d1

/-- adjustedDebtToCover, index.js lines 1997-2000: reduce further when the
selected strategy reports a smaller maximum amount. This value is the
amount field of every lParam the full-scan path encodes. -/
def adjustedDebtToCover (userDebt debtBalanceInmToken : ℕ)
    (strategyMaxAmount : Option ℕ) : ℕ :=
  let d := fullScanDebtToCover userDebt debtBalanceInmToken
  match strategyMaxAmount with
  | some m => if m < d then m else d
  | none => d

/-- A ladder candidate with the interest buffer, index.js lines 602-606. -/
def ladderDebtWithBuffer (userDebt pct : ℕ) : ℕ :=
  withInterestBuffer (userDebt * pct / 100)

/-- debtToCover of a prepared liquidation, index.js lines 868-873: the
adaptive candidate, capped at the pool balance when the user debt exceeds
it. This is the amount field of the fast-path lParam (line 3054). -/
def preparedDebtToCover (userDebt debtBalanceInmToken pct : ℕ) : ℕ :=
  let d := ladderDebtWithBuffer userDebt pct
  if debtBalanceInmToken < userDebt then
    (if d < debtBalanceInmToken then d else debtBalanceInmToken)
  else d

/-- debtToCover of a batch-prepared liquidation, index.js lines 1285 and
1337: the plain ladder fraction without buffer. -/
def batchPreparedDebtToCover (userDebt pct : ℕ) : ℕ :=
  userDebt * pct / 100

/-! ## Primary swap minimum output (claim C2)

index.js lines 2033-2058 (full-scan StableKitty path) and 2396-2402
(full-scan V2-direct path); src/utils/helpers.js applySlippage;
src/strategies/stablekitty.js lines 91-119; src/strategies/v2-direct.js
line 82. -/

/-- Aave-style flash loan fee, 5 bps of the borrowed amount. -/
def flashLoanFee (d : ℕ) : ℕ :=
  d * flashLoanPremiumBps / 10000

/-- totalNeeded for a money-market flash loan: debt plus flash fee. -/
def totalNeededAave (d : ℕ) : ℕ :=
  d + flashLoanFee d

/-- applySlippage from src/utils/helpers.js lines 128-131. -/
def applySlippage (amount slippageBps : ℕ) : ℕ :=
  amount * (10000 - slippageBps) / 10000

/-- minOutput of the full-scan StableKitty path, index.js line 2048: the
exact totalNeeded. -/
def mainStableKittyMinOutput (debtToCover : ℕ) : ℕ :=
  totalNeededAave debtToCover

/-- minOutput of StableKittyMoreStrategy.buildParams,
src/strategies/stablekitty.js line 104: totalNeeded reduced by the 50 bps
StableKitty slippage allowance. -/
def stableKittyStrategyMinOutput (debtToCover : ℕ) : ℕ :=
  applySlippage (totalNeededAave debtToCover) stableKittySlippageBps

/-- minOutput of V2DirectStrategy.buildParams, src/strategies/v2-direct.js
line 82: totalNeeded reduced by 100 bps. -/
def v2DirectStrategyMinOutput (debtToCover : ℕ) : ℕ :=
  applySlippage (totalNeededAave debtToCover) 100

/-- minOutput of the full-scan V2-direct path, index.js lines 2401-2402:
totalNeeded reduced by the dynamic slippage in bps. -/
def mainV2DirectMinOutput (debtToCover slippageBps : ℕ) : ℕ :=
  totalNeededAave debtToCover * (10000 - slippageBps) / 10000

/-! ## Expected collateral (claim C7)

calculateExpectedCollateral, index.js lines 1486-1530. -/

/-- Decimal alignment of index.js lines 1512-1520: scale up when the
collateral has more decimals, floor-divide when it has fewer. -/
def alignForDecimals (x collateralDecimals debtDecimals : ℕ) : ℕ :=
  if debtDecimals < collateralDecimals then
    x * 10 ^ (collateralDecimals - debtDecimals)
  else if collateralDecimals < debtDecimals then
    x / 10 ^ (debtDecimals - collateralDecimals)
  else x

/-- calculateExpectedCollateral, index.js lines 1505-1529, with the oracle
prices, liquidation bonus and decimals as inputs: the theoretical
collateral is computed with the two successive floor divisions of the
source (div collateralPrice, then div 10000), aligned for decimals, then
scaled by CONSERVATIVE_FACTOR = 99 over 100. -/
def calculateExpectedCollateral
    (debtToCover debtPrice collateralPrice liquidationBonus
     collateralDecimals debtDecimals : ℕ) : ℕ :=
  let theoretical := debtToCover * debtPrice * liquidationBonus / collateralPrice / 10000
  alignForDecimals theoretical collateralDecimals debtDecimals
    * conservativeFactorPct / 100

/-- The claim's reading of the same computation: one floor division by the
product collateralPrice times 10000, then alignment, then the 0.99
factor. -/
def expectedCollateralSpec
    (debtToCover debtPrice collateralPrice liquidationBonus
     collateralDecimals debtDecimals : ℕ) : ℕ :=
  alignForDecimals (debtToCover * debtPrice * liquidationBonus / (collateralPrice * 10000))
    collateralDecimals debtDecimals * 99 / 100

/-! ## Adaptive sizer (claim C6)

findOptimalLiquidationPercentage, index.js lines 597-641, with the profit
estimator (estimateLiquidationProfit, lines 649-696, an asynchronous
on-chain computation) as a function input. -/

/-- Result of estimateLiquidationProfit: the JavaScript floats profitUsd
and estimatedGas, embedded as rationals. -/
structure ProfitEstimate where
  profitUsd : ℚ
  estimatedGas : ℚ
  deriving DecidableEq

/-- One entry of the results array of index.js lines 611-616. -/
structure LadderOption where
  percentage : ℕ
  debtToCover : ℕ
  estimatedProfit : ℚ
  profitPerGas : ℚ
  deriving DecidableEq

/-- The candidate built for one ladder percentage, index.js lines 602-616:
the buffered fraction of the debt, its profit estimate and the profit per
gas ratio. -/
def ladderOption (est : ℕ → ProfitEstimate) (userDebt pct : ℕ) : LadderOption :=
  let dBuf := ladderDebtWithBuffer userDebt pct
  let pe := est dBuf
  ⟨pct, dBuf, pe.profitUsd, pe.profitUsd / pe.estimatedGas⟩

/-- The ladder loop of index.js lines 600-628: walk the percentages in
order, push each evaluated candidate, and break after the first whose
estimated profit is not positive. -/
def evalLadder (est : ℕ → ProfitEstimate) (userDebt : ℕ) : List ℕ → List LadderOption
  | [] => []
  | pct :: rest =>
    let r := ladderOption est userDebt pct
    if r.estimatedProfit ≤ 0 then [r] else r :: evalLadder est userDebt rest

/-- First element of the stable descending sort by profitPerGas, index.js
lines 635-637: the earliest candidate of maximal profit per gas. -/
def bestByProfitPerGas : List LadderOption → Option LadderOption
  | [] => none
  | r :: rest =>
    match bestByProfitPerGas rest with
    | none => some r
    | some b => if r.profitPerGas < b.profitPerGas then some b else some r

/-- findOptimalLiquidationPercentage, index.js lines 597-641: none when
every evaluated candidate has non-positive profit, otherwise the
positive-profit candidate of best profit per gas. -/
def findOptimalLiquidationPercentage (est : ℕ → ProfitEstimate) (userDebt : ℕ) :
    Option LadderOption :=
  if (evalLadder est userDebt liquidationPercentages).all
      (fun r => r.estimatedProfit ≤ 0) then none
  else bestByProfitPerGas ((evalLadder est userDebt liquidationPercentages).filter
    (fun r => 0 < r.estimatedProfit))

/-! ## Blacklist (claims C4 and C5)

index.js lines 541-583. The reason string of an entry is not modelled. -/

/-- One failedPositions entry, index.js line 551. -/
structure BlacklistEntry where
  failures : ℕ
  lastAttempt : ℕ
  deriving DecidableEq

/-- The failedPositions map. -/
abbrev Blacklist := List (ℕ × BlacklistEntry)

/-- recordFailedLiquidation, index.js lines 550-557. -/
def recordFailedLiquidation (bl : Blacklist) (user now : ℕ) : Blacklist :=
  let e := (findEntry bl user).getD ⟨0, 0⟩
  setEntry bl user ⟨e.failures + 1, now⟩

/-- The boolean decision of shouldSkipPosition, index.js lines 564-575:
false without an entry, false (and the entry is dropped) when the entry is
older than the TTL, otherwise true iff failures reached the threshold. -/
def skipDecision (bl : Blacklist) (user now : ℕ) : Bool :=
  match findEntry bl user with
  | none => false
  | some e =>
    if blacklistTtlMs < now - e.lastAttempt then false
    else decide (maxFailuresBeforeBlacklist ≤ e.failures)

/-- shouldSkipPosition with its state effect (the expired-entry removal of
index.js lines 568-572). -/
def shouldSkipPosition (bl : Blacklist) (user now : ℕ) : Bool × Blacklist :=
  match findEntry bl user with
  | none => (false, bl)
  | some e =>
    if blacklistTtlMs < now - e.lastAttempt then (false, eraseEntry bl user)
    else (decide (maxFailuresBeforeBlacklist ≤ e.failures), bl)

/-- clearFailedPosition, index.js lines 581-583. -/
def clearFailedPosition (bl : Blacklist) (user : ℕ) : Blacklist :=
  eraseEntry bl user

/-! ## Hot position tracker (claims C3 and C4)

index.js lines 1743-1780 (full-scan update) and 2955-3005 (quick check). -/

/-- One hotPositions entry (index.js line 1766): the stored health factor
and debt are kept at their raw 1e18 and 1e8 scales. -/
structure HotEntry where
  hf : ℕ
  debtBase : ℕ
  lastUpdate : ℕ
  deriving DecidableEq

/-- The hotPositions map. -/
abbrev HotMap := List (ℕ × HotEntry)

/-- One decoded getUserAccountData observation of a borrower. -/
structure Obs where
  user : ℕ
  healthFactor : ℕ
  totalDebtBase : ℕ
  deriving DecidableEq

/-- The wideUnhealthyUsers filter of index.js lines 1743-1748: health
factor in the band from 1 inclusive to 1.10 exclusive and debt at least
MIN_DEBT_USD. -/
def wideBand (o : Obs) : Bool :=
  decide (o.healthFactor < 110 * WeiPerEther / 100) &&
  decide (WeiPerEther ≤ o.healthFactor) &&
  decide (minDebtUsd * 10 ^ 8 ≤ o.totalDebtBase)

/-- The full-scan tracker update, index.js lines 1761-1780: insert every
observation that passes the wide band filter, then evict entries whose
lastUpdate is more than five minutes before now. -/
def fullScanHotUpdate (obs : List Obs) (now : ℕ) (m : HotMap) : HotMap :=
  let m1 := (obs.filter wideBand).foldl
    (fun acc o => setEntry acc o.user ⟨o.healthFactor, o.totalDebtBase, now⟩) m
  m1.filter (fun p => !(decide (p.2.lastUpdate + hotEvictionMs < now)))

/-- The tracker effect of quickCheckHotPositions, index.js lines
2955-3005: per observation, skip dust, skip blacklisted borrowers, leave
liquidatable borrowers untouched, and otherwise refresh the health factor
and lastUpdate of an existing entry. -/
def quickCheckHotUpdate (bl : Blacklist) (obs : List Obs) (now : ℕ) (m : HotMap) :
    HotMap :=
  obs.foldl (fun acc o =>
    if o.totalDebtBase < minDebtUsd * 10 ^ 8 then acc
    else if skipDecision bl o.user now then acc
    else if 0 < o.healthFactor ∧ o.healthFactor ≤ WeiPerEther then acc
    else
      match findEntry acc o.user with
      | some e => setEntry acc o.user ⟨o.healthFactor, e.debtBase, now⟩
      | none => acc) m

/-- The two transitions that mutate the tracker. -/
inductive TrackerStep where
  | fullScan (obs : List Obs) (now : ℕ)
  | quickCheck (bl : Blacklist) (obs : List Obs) (now : ℕ)

/-- Apply one tracker transition. -/
def applyTrackerStep (m : HotMap) : TrackerStep → HotMap
  | .fullScan obs now => fullScanHotUpdate obs now m
  | .quickCheck bl obs now => quickCheckHotUpdate bl obs now m

/-- Run a trace of tracker transitions from the empty tracker. -/
def runTracker (steps : List TrackerStep) : HotMap :=
  steps.foldl applyTrackerStep []

/-- The observations carried by one transition. -/
def stepObservations : TrackerStep → List Obs
  | .fullScan obs _ => obs
  | .quickCheck _ obs _ => obs

/-- The most recent observation of a borrower along a trace. -/
def lastObserved (steps : List TrackerStep) (user : ℕ) : Option Obs :=
  (((steps.map stepObservations).flatten).filter (fun o => o.user == user)).getLast?

/-- The concrete trace refuting claim C3: a full scan inserts borrower 7
inside the band; a quick check then observes the borrower far outside the
band (health factor 1.5) and refreshes the entry anyway; a later quick
check observes the borrower as dust and leaves the stale entry in place
past the five minute window. -/
def c3Trace : List TrackerStep :=
  [ .fullScan [⟨7, 105 * 10 ^ 16, 10 ^ 9⟩] 1000000,
    .quickCheck [] [⟨7, 15 * 10 ^ 17, 10 ^ 9⟩] 1000500,
    .quickCheck [] [⟨7, 15 * 10 ^ 17, 0⟩] 2000000 ]

/-! ## Candidate selection guards (claim C4)

The blacklist-relevant guards ahead of execution: index.js lines
1731-1733, 1917-1930 (full scan) and 2955-2978 (quick check). The later
guards of the full-scan loop (collateral and debt presence, strategy
availability) only restrict the selection further. -/

/-- The full-scan guards a borrower must pass before the executor is
entered: liquidatable health factor (lines 1731-1733), non-dust debt
(line 1920), and not blacklisted (line 1926). -/
def fullScanSelects (bl : Blacklist) (now : ℕ) (o : Obs) : Bool :=
  decide (0 < o.healthFactor) && decide (o.healthFactor ≤ WeiPerEther) &&
  decide (minDebtUsd * 10 ^ 8 ≤ o.totalDebtBase) &&
  !(skipDecision bl o.user now)

/-- The liquidatable list emitted by quickCheckHotPositions, index.js
lines 2955-2990: dust and blacklisted borrowers are dropped before the
liquidatable test. -/
def quickCheckLiquidatable (bl : Blacklist) (obs : List Obs) (now : ℕ) : List Obs :=
  obs.filter (fun o =>
    !(decide (o.totalDebtBase < minDebtUsd * 10 ^ 8)) &&
    !(skipDecision bl o.user now) &&
    decide (0 < o.healthFactor) && decide (o.healthFactor ≤ WeiPerEther))

/-! ## Success attribution (claim C5)

index.js line 2713 (full-scan success clears the blacklist entry) and
lines 3109-3138 (fast-path success removes the prepared entry only). -/

/-- The shared state touched by success attribution: the prepared
liquidations map (payload abstracted to a tag) and the blacklist. -/
structure ExecState where
  prepared : List (ℕ × ℕ)
  blacklist : Blacklist
  deriving DecidableEq

/-- Success attribution of the full-scan path, index.js line 2713:
clearFailedPosition on the liquidated borrower. -/
def scanSuccessStep (st : ExecState) (user : ℕ) : ExecState :=
  { st with blacklist := clearFailedPosition st.blacklist user }

/-- Success attribution of executePreparedLiquidation, index.js lines
3111-3113: only the prepared entry is deleted; the blacklist is not
touched. -/
def fastPathSuccessStep (st : ExecState) (user : ℕ) : ExecState :=
  { st with prepared := eraseEntry st.prepared user }

/-- Concrete state for the claim C5 counterexample: borrower 7 has a
prepared liquidation and one blacklist failure on record. -/
def c5State : ExecState :=
  ⟨[(7, 0)], [(7, ⟨1, 500⟩)]⟩

/-! ## Price cache (claim C8)

getCachedPrice, index.js lines 457-468, and PricingService.getPrice,
src/services/pricing.js lines 18-34. The oracle read is an input: some
price on success, none when the read throws. -/

/-- One priceCache entry, index.js line 466. -/
structure PriceEntry where
  price : ℕ
  timestamp : ℕ
  deriving DecidableEq

/-- The priceCache map. -/
abbrev PriceCache := List (ℕ × PriceEntry)

/-- getCachedPrice, index.js lines 457-468: serve a cached price younger
than the TTL, otherwise read the oracle; a successful read is cached with
the current time, a failed read propagates (result none) even when a
stale cached value exists. -/
def getCachedPrice (cache : PriceCache) (token now : ℕ) (oracleResult : Option ℕ) :
    Option (ℕ × PriceCache) :=
  match findEntry cache token with
  | some c =>
    if now - c.timestamp < cacheTtlMs then some (c.price, cache)
    else
      match oracleResult with
      | some p => some (p, setEntry cache token ⟨p, now⟩)
      | none => none
  | none =>
    match oracleResult with
    | some p => some (p, setEntry cache token ⟨p, now⟩)
    | none => none

/-- The behaviour the claim describes for the price getter, written from
the specification: on oracle failure the last cached value is served when
one is present, and only a missing cache produces the failure. -/
def claimGetPrice (cache : PriceCache) (token now : ℕ) (oracleResult : Option ℕ) :
    Option (ℕ × PriceCache) :=
  match findEntry cache token with
  | some c =>
    if now - c.timestamp < cacheTtlMs then some (c.price, cache)
    else
      match oracleResult with
      | some p => some (p, setEntry cache token ⟨p, now⟩)
      | none => some (c.price, cache)
  | none =>
    match oracleResult with
    | some p => some (p, setEntry cache token ⟨p, now⟩)
    | none => none

/-- PricingService.getPrice, src/services/pricing.js lines 18-34: the
variant with the stale fallback; on failure it serves the cached price
when one exists and the price zero otherwise (cacheTtl there is 10 s). -/
def pricingServiceGetPrice (cache : PriceCache) (token now : ℕ)
    (oracleResult : Option ℕ) : ℕ × PriceCache :=
  match findEntry cache token with
  | some c =>
    if now - c.timestamp < 10000 then (c.price, cache)
    else
      match oracleResult with
      | some p => (p, setEntry cache token ⟨p, now⟩)
      | none => (c.price, cache)
  | none =>
    match oracleResult with
    | some p => (p, setEntry cache token ⟨p, now⟩)
    | none => (0, cache)

/-- True when the cache holds no fresh entry for the token: the branch of
getCachedPrice in which the oracle is actually read. -/
def staleOrMissing (cache : PriceCache) (token now : ℕ) : Bool :=
  match findEntry cache token with
  | some c => decide (cacheTtlMs ≤ now - c.timestamp)
  | none => true

/-- Concrete cache for the claim C8 counterexample: token 7 has a stale
cached price 42 observed at time 0. -/
def c8Cache : PriceCache := [(7, ⟨42, 0⟩)]

/-! ## Retry with backoff (claim C9)

retryWithBackoff, index.js lines 1452-1478, with the outcome of each
attempt as an input function. -/

/-- Outcome of one attempt: a successful value, or an error that is or is
not in the retryable set of index.js lines 1459-1465. -/
inductive AttemptOutcome where
  | success (value : ℕ)
  | failure (retryable : Bool)
  deriving DecidableEq

/-- Observable trace of one retryWithBackoff run: the returned value if
any, the number of attempts performed, and the sleep durations between
successive attempts, in order. -/
structure RetryTrace where
  result : Option ℕ
  attempts : ℕ
  delays : List ℕ
  deriving DecidableEq

/-- The loop of index.js lines 1454-1476: attempt numbers count from 1,
the fuel is the number of attempts still allowed; a failure stops
immediately when it is not retryable or the attempt is the last one,
otherwise the loop sleeps baseDelay times 2 to the attempt minus 1 and
retries. -/
def retryFrom (outcomes : ℕ → AttemptOutcome) (baseDelayMs : ℕ) :
    ℕ → ℕ → RetryTrace
  | _, 0 => ⟨none, 0, []⟩
  | attempt, fuel + 1 =>
    match outcomes attempt with
    | .success v => ⟨some v, 1, []⟩
    | .failure retryable =>
      if !retryable || fuel == 0 then ⟨none, 1, []⟩
      else
        let rest := retryFrom outcomes baseDelayMs (attempt + 1) fuel
        ⟨rest.result, rest.attempts + 1, baseDelayMs * 2 ^ (attempt - 1) :: rest.delays⟩

/-- retryWithBackoff with its default arguments maxRetries 3 and baseDelay
1000 ms (index.js line 1452). -/
def retryWithBackoff (outcomes : ℕ → AttemptOutcome) : RetryTrace :=
  retryFrom outcomes 1000 1 3

/-- The run in which every attempt fails with a retryable error. -/
def allFailRetryable : ℕ → AttemptOutcome := fun _ => .failure true

/-! ## Preparation sentinel (claim C10)

prepareLiquidationParams, index.js lines 742-959, and the
batchPreparePositions filter of lines 1007-1009. The on-chain reads and
the parameter construction are abstracted into the outcome the run would
take. -/

/-- The possible continuations of one prepareLiquidationParams run after
the sentinel was added. -/
inductive PrepOutcome where
  /-- config.bots has no entry for the pool (index.js lines 747-751). -/
  | noBotInfo
  /-- mInfos or dInfos is empty (index.js line 820). -/
  | noHoldings
  /-- the debt token is not among the receipt-token underlyings (index.js
  line 824). -/
  | debtNotReceipt
  /-- the adaptive sizer found no profitable percentage (index.js lines
  860-866). -/
  | noProfitablePct
  /-- the preparation completed and produced parameters (index.js lines
  928-952). -/
  | buildOk (params : ℕ)
  /-- an exception was thrown and caught (index.js lines 954-958). -/
  | buildError
  deriving DecidableEq

/-- The shared preparation state: the preparing sentinel set, the
prepared map and the blacklist. -/
structure PrepState where
  preparing : List ℕ
  prepared : List (ℕ × ℕ)
  blacklist : Blacklist
  deriving DecidableEq

/-- Set.delete on the preparing sentinel list. -/
def removePreparing (l : List ℕ) (u : ℕ) : List ℕ :=
  l.filter (fun v => !(v == u))

/-- prepareLiquidationParams, index.js lines 742-959, reduced to its
return value and its effect on the shared state: the guard of line 744,
the sentinel insertion of line 745, and the per-outcome cleanup. The
early returns of lines 820 and 824 do not remove the sentinel. -/
def prepareLiquidationParams (st : PrepState) (user now : ℕ) (outcome : PrepOutcome) :
    Option ℕ × PrepState :=
  if user ∈ st.preparing ∨ (findEntry st.prepared user).isSome then (none, st)
  else
    let st1 : PrepState := { st with preparing := user :: st.preparing }
    match outcome with
    | .noBotInfo => (none, { st1 with preparing := removePreparing st1.preparing user })
    | .noHoldings => (none, st1)
    | .debtNotReceipt => (none, st1)
    | .noProfitablePct =>
      (none, { st1 with
        preparing := removePreparing st1.preparing user,
        blacklist := recordFailedLiquidation st1.blacklist user now })
    | .buildOk p =>
      (some p, { st1 with
        prepared := setEntry st1.prepared user p,
        preparing := removePreparing st1.preparing user })
    | .buildError => (none, { st1 with preparing := removePreparing st1.preparing user })

/-- The batchPreparePositions filter of index.js lines 1007-1009: drop
borrowers already preparing or already prepared. -/
def batchPrepareFilter (st : PrepState) (users : List ℕ) : List ℕ :=
  users.filter (fun u => !(decide (u ∈ st.preparing)) && !(findEntry st.prepared u).isSome)

/-- A constant profit estimator (every size worth 1 USD at gas 2), used to
evaluate the adaptive sizer on a concrete input. -/
def constEstimate : ℕ → ProfitEstimate := fun _ => ⟨1, 2⟩

/-! ## Helper lemmas -/

/-- Looking up a key just erased finds nothing. -/
theorem findEntry_eraseEntry {α : Type} (m : List (ℕ × α)) (u : ℕ) :
    findEntry (eraseEntry m u) u = none := by
  induction m with
  | nil => rfl
  | cons p rest ih =>
    obtain ⟨k, v⟩ := p
    by_cases hk : k = u
    · simpa [eraseEntry, List.filter_cons, hk] using ih
    · simpa [eraseEntry, List.filter_cons, hk, findEntry] using ih

/-- A successful lookup exhibits a member of the list. -/
theorem findEntry_some_mem {α : Type} {m : List (ℕ × α)} {u : ℕ} {v : α}
    (h : findEntry m u = some v) : (u, v) ∈ m := by
  induction m with
  | nil => simp [findEntry] at h
  | cons p rest ih =>
    obtain ⟨k, w⟩ := p
    by_cases hk : k = u
    · subst hk
      simp [findEntry] at h
      simp [h]
    · simp [findEntry, hk] at h
      exact List.mem_cons_of_mem _ (ih h)

/-- A member key makes the lookup succeed. -/
theorem mem_findEntry_isSome {α : Type} {m : List (ℕ × α)} {u : ℕ} {v : α}
    (h : (u, v) ∈ m) : (findEntry m u).isSome := by
  induction m with
  | nil => simp at h
  | cons p rest ih =>
    obtain ⟨k, w⟩ := p
    by_cases hk : k = u
    · simp [findEntry, hk]
    · rcases List.mem_cons.mp h with h1 | h1
      · exact absurd (congrArg Prod.fst h1).symm hk
      · simpa [findEntry, hk] using ih h1

/-- The interest buffer keeps the scaled value under the buffered bound of
any upper bound of its argument. -/
theorem withInterestBuffer_mul_le (a b : ℕ) (h : a ≤ b) :
    withInterestBuffer a * 10000 ≤ b * (10000 + interestBufferBps) := by
  unfold withInterestBuffer interestBufferBps
  calc a * (10000 + 10) / 10000 * 10000 ≤ a * (10000 + 10) := Nat.div_mul_le_self _ _
    _ ≤ b * (10000 + 10) := Nat.mul_le_mul_right _ h

/-- Floor division by a positive number loses less than one multiple. -/
theorem lt_div_succ_mul (a n : ℕ) (hn : 0 < n) : a < (a / n + 1) * n := by
  have h1 := Nat.div_add_mod a n
  have h2 := Nat.mod_lt a hn
  have h3 : (a / n + 1) * n = n * (a / n) + n := by ring
  omega

/-! ## Claim C1 -/

/-- C1: every debt-to-cover amount the bot encodes into a transaction (the
amount field of lParam) is at most the close-factor half of the user debt
scaled by the 0.1 percent interest buffer, on the full-scan path
(adjustedDebtToCover), the single prepared path (preparedDebtToCover, for
any ladder percentage) and the batch prepared path
(batchPreparedDebtToCover): each value times 10000 is at most
floor(userDebt * 50 / 100) * 10010. -/
theorem c1_debt_to_cover_bounded (userDebt debtBalanceInmToken : ℕ)
    (strategyMaxAmount : Option ℕ) (pct : ℕ)
    (hpct : pct ∈ liquidationPercentages) :
    adjustedDebtToCover userDebt debtBalanceInmToken strategyMaxAmount * 10000 ≤
      maxLiquidatable userDebt * (10000 + interestBufferBps)
    ∧ preparedDebtToCover userDebt debtBalanceInmToken pct * 10000 ≤
      maxLiquidatable userDebt * (10000 + interestBufferBps)
    ∧ batchPreparedDebtToCover userDebt pct * 10000 ≤
      maxLiquidatable userDebt * (10000 + interestBufferBps) := by
  have hpct50 : pct ≤ 50 := by
    simp [liquidationPercentages] at hpct
    rcases hpct with h | h | h <;> omega
  have hfrac : userDebt * pct / 100 ≤ maxLiquidatable userDebt := by
    unfold maxLiquidatable closeFactorPct
    exact Nat.div_le_div_right (Nat.mul_le_mul_left _ hpct50)
  have hfull : fullScanDebtToCover userDebt debtBalanceInmToken * 10000 ≤
      maxLiquidatable userDebt * (10000 + interestBufferBps) := by
    unfold fullScanDebtToCover
    apply withInterestBuffer_mul_le
    dsimp only
    generalize (if debtBalanceInmToken < userDebt then debtBalanceInmToken else userDebt) = d0
    split <;> omega
  refine ⟨?_, ?_, ?_⟩
  · have hle : adjustedDebtToCover userDebt debtBalanceInmToken strategyMaxAmount ≤
        fullScanDebtToCover userDebt debtBalanceInmToken := by
      unfold adjustedDebtToCover
      match strategyMaxAmount with
      | some m => dsimp only; split <;> omega
      | none => exact le_rfl
    calc adjustedDebtToCover userDebt debtBalanceInmToken strategyMaxAmount * 10000
        ≤ fullScanDebtToCover userDebt debtBalanceInmToken * 10000 :=
          Nat.mul_le_mul_right _ hle
      _ ≤ _ := hfull
  · have hlad : ladderDebtWithBuffer userDebt pct * 10000 ≤
        maxLiquidatable userDebt * (10000 + interestBufferBps) :=
      withInterestBuffer_mul_le _ _ hfrac
    have hle : preparedDebtToCover userDebt debtBalanceInmToken pct ≤
        ladderDebtWithBuffer userDebt pct := by
      unfold preparedDebtToCover
      dsimp only
      split
      · split <;> omega
      · exact le_rfl
    calc preparedDebtToCover userDebt debtBalanceInmToken pct * 10000
        ≤ ladderDebtWithBuffer userDebt pct * 10000 := Nat.mul_le_mul_right _ hle
      _ ≤ _ := hlad
  · calc batchPreparedDebtToCover userDebt pct * 10000
        ≤ maxLiquidatable userDebt * 10000 :=
          Nat.mul_le_mul_right _ hfrac
      _ ≤ maxLiquidatable userDebt * (10000 + interestBufferBps) :=
          Nat.mul_le_mul_left _ (by omega)

/-- C1 witness: the bound evaluated at a concrete position with one
million base units of debt, a smaller pool balance and a strategy cap. -/
theorem c1_debt_to_cover_bounded_witness :
    adjustedDebtToCover 1000000 600000 (some 400000) * 10000 ≤
      maxLiquidatable 1000000 * (10000 + interestBufferBps)
    ∧ preparedDebtToCover 1000000 600000 25 * 10000 ≤
      maxLiquidatable 1000000 * (10000 + interestBufferBps)
    ∧ batchPreparedDebtToCover 1000000 25 * 10000 ≤
      maxLiquidatable 1000000 * (10000 + interestBufferBps) :=
  c1_debt_to_cover_bounded 1000000 600000 (some 400000) 25 (by decide)

/-! ## Claim C2 -/

/-- C2 counterexample: the StableKitty strategy builder encodes a primary
swap minimum output strictly below debtToCover plus the flash fee. At
debtToCover 10000 the flash fee is 5, totalNeeded is 10005, and the
encoded amountOutMin is 9954. -/
theorem c2_min_output_counterexample :
    stableKittyStrategyMinOutput 10000 < 10000 + flashLoanFee 10000
    ∧ stableKittyStrategyMinOutput 10000 = 9954 := by decide

/-- C2 amended: only the full-scan StableKitty path pins the primary
swap's amountOutMin to exactly debtToCover plus the flash fee; the
StableKitty and V2-direct strategy builders instead apply a slippage
reduction of 50 and 100 bps to that sum, so their amountOutMin is the
floor of totalNeeded times (10000 - bps) over 10000 and may fall below
debtToCover plus the flash fee, though never by more than the slippage
fraction plus one base unit. -/
theorem c2_min_output_amended (d : ℕ) :
    mainStableKittyMinOutput d = d + flashLoanFee d
    ∧ stableKittyStrategyMinOutput d * 10000 ≤
        (d + flashLoanFee d) * (10000 - stableKittySlippageBps)
    ∧ (d + flashLoanFee d) * (10000 - stableKittySlippageBps) <
        (stableKittyStrategyMinOutput d + 1) * 10000
    ∧ v2DirectStrategyMinOutput d * 10000 ≤ (d + flashLoanFee d) * 9900
    ∧ (d + flashLoanFee d) * 9900 < (v2DirectStrategyMinOutput d + 1) * 10000 := by
  refine ⟨rfl, ?_, ?_, ?_, ?_⟩
  · exact Nat.div_mul_le_self _ _
  · exact lt_div_succ_mul _ _ (by norm_num)
  · exact Nat.div_mul_le_self _ _
  · exact lt_div_succ_mul _ _ (by norm_num)

/-! ## Claim C7 -/

/-- C7: calculateExpectedCollateral computes exactly the claim's formula:
the floor of debtToCover times debtPrice times liquidationBonus over
(collateralPrice times 10000), aligned for the decimals difference,
multiplied by 99 and floor-divided by 100. The two successive floor
divisions of the source collapse into the single combined division. -/
theorem c7_expected_collateral_eq
    (debtToCover debtPrice collateralPrice liquidationBonus
     collateralDecimals debtDecimals : ℕ) :
    calculateExpectedCollateral debtToCover debtPrice collateralPrice
      liquidationBonus collateralDecimals debtDecimals =
    expectedCollateralSpec debtToCover debtPrice collateralPrice
      liquidationBonus collateralDecimals debtDecimals := by
  unfold calculateExpectedCollateral expectedCollateralSpec conservativeFactorPct
  rw [Nat.div_div_eq_div_mul]

/-- Looking up the key just set finds the new value. -/
theorem findEntry_setEntry_self {α : Type} (m : List (ℕ × α)) (u : ℕ) (v : α) :
    findEntry (setEntry m u v) u = some v := by
  induction m with
  | nil => simp [setEntry, findEntry]
  | cons p rest ih =>
    obtain ⟨k, w⟩ := p
    by_cases hk : k = u
    · simp [setEntry, hk, findEntry]
    · simpa [setEntry, hk, findEntry] using ih

/-! ## Claim C5 -/

/-- C5 counterexample: at the concrete state in which borrower 7 holds a
prepared liquidation and a blacklist entry with one recorded failure, a
successful fast-path execution removes the prepared entry but leaves the
blacklist entry in place, so after the success the borrower still has a
blacklist entry. -/
theorem c5_fast_path_counterexample :
    findEntry (fastPathSuccessStep c5State 7).blacklist 7 = some ⟨1, 500⟩
    ∧ findEntry (fastPathSuccessStep c5State 7).prepared 7 = none := by decide

/-- C5 amended: a successful execution on the standard full-scan path
purges the borrower from the blacklist; a successful execution on the
prepared fast path removes the borrower's prepared entry but does not
touch the blacklist at all. -/
theorem c5_success_attribution_amended (st : ExecState) (user : ℕ) :
    findEntry (scanSuccessStep st user).blacklist user = none
    ∧ (fastPathSuccessStep st user).blacklist = st.blacklist
    ∧ findEntry (fastPathSuccessStep st user).prepared user = none := by
  refine ⟨?_, rfl, ?_⟩
  · exact findEntry_eraseEntry _ _
  · exact findEntry_eraseEntry _ _

/-! ## Claim C8 -/

/-- C8 counterexample: with a stale cached price 42 for token 7 and a
failing oracle read, getCachedPrice propagates the failure instead of
serving the cached value, while the function written from the claim's
words serves the cached 42. -/
theorem c8_stale_fallback_counterexample :
    getCachedPrice c8Cache 7 10000 none = none
    ∧ claimGetPrice c8Cache 7 10000 none = some (42, c8Cache)
    ∧ (findEntry c8Cache 7).isSome := by decide

/-- C8 amended: getCachedPrice serves a cached price younger than the TTL
without reading the oracle; otherwise it reads the oracle, and a
successful read returns the fresh price and caches it with the current
observation time, while a failed read propagates the failure even when a
stale cached value exists; the stale fallback lives only in
PricingService.getPrice, which serves the last cached value whenever the
oracle read fails and a cached entry exists. -/
theorem c8_price_cache_amended (cache : PriceCache) (token now : ℕ)
    (oracleResult : Option ℕ) :
    (∀ c, findEntry cache token = some c → now - c.timestamp < cacheTtlMs →
      getCachedPrice cache token now oracleResult = some (c.price, cache))
    ∧ (∀ p, oracleResult = some p → staleOrMissing cache token now = true →
      getCachedPrice cache token now oracleResult = some (p, setEntry cache token ⟨p, now⟩)
      ∧ findEntry (setEntry cache token ⟨p, now⟩) token = some ⟨p, now⟩)
    ∧ (oracleResult = none → staleOrMissing cache token now = true →
      getCachedPrice cache token now oracleResult = none)
    ∧ (∀ c, findEntry cache token = some c → oracleResult = none →
      (pricingServiceGetPrice cache token now oracleResult).1 = c.price) := by
  refine ⟨?_, ?_, ?_, ?_⟩
  · intro c hc hfresh
    unfold getCachedPrice
    rw [hc]
    simp [hfresh]
  · intro p hp hstale
    refine ⟨?_, findEntry_setEntry_self _ _ _⟩
    unfold staleOrMissing at hstale
    unfold getCachedPrice
    cases hfind : findEntry cache token with
    | none => simp [hfind, hp]
    | some c =>
      rw [hfind] at hstale
      simp only [decide_eq_true_eq] at hstale
      simp [hfind, hp, Nat.not_lt.mpr hstale]
  · intro hnone hstale
    unfold staleOrMissing at hstale
    unfold getCachedPrice
    cases hfind : findEntry cache token with
    | none => simp [hfind, hnone]
    | some c =>
      rw [hfind] at hstale
      simp only [decide_eq_true_eq] at hstale
      simp [hfind, hnone, Nat.not_lt.mpr hstale]
  · intro c hc hnone
    unfold pricingServiceGetPrice
    simp only [hc, hnone]
    split <;> rfl

/-- C8 witness: the amended theorem applied at the concrete stale cache
with a successful oracle read returning 99. -/
theorem c8_price_cache_amended_witness :
    getCachedPrice c8Cache 7 10000 (some 99) = some (99, setEntry c8Cache 7 ⟨99, 10000⟩)
    ∧ findEntry (setEntry c8Cache 7 ⟨99, 10000⟩) 7 = some ⟨99, 10000⟩ :=
  (c8_price_cache_amended c8Cache 7 10000 (some 99)).2.1 99 rfl (by decide)

/-! ## Claim C9 -/

/-- C9 counterexample: even the longest run of retryWithBackoff, in which
every attempt fails with a retryable error, performs exactly 3 attempts
with inter-attempt delays of 1000 ms and 2000 ms only; the 4000 ms delay
named by the claim never occurs. -/
theorem c9_retry_counterexample :
    (retryWithBackoff allFailRetryable).attempts = 3
    ∧ (retryWithBackoff allFailRetryable).delays = [1000, 2000]
    ∧ ¬ (4000 ∈ (retryWithBackoff allFailRetryable).delays) := by decide

/-- C9 amended: every retryWithBackoff run performs at most 3 attempts,
the inter-attempt delays are the corresponding leading portion of 1000 ms
then 2000 ms (so a 4 s delay cannot occur), and a first attempt failing
with a non-retryable error ends the run immediately with one attempt and
no delay. -/
theorem c9_retry_amended (outcomes : ℕ → AttemptOutcome) :
    (retryWithBackoff outcomes).attempts ≤ 3
    ∧ (retryWithBackoff outcomes).delays =
        [1000, 2000].take ((retryWithBackoff outcomes).attempts - 1)
    ∧ (outcomes 1 = .failure false → retryWithBackoff outcomes = ⟨none, 1, []⟩) := by
  rcases h1 : outcomes 1 with v1 | r1
  · refine ⟨?_, ?_, ?_⟩ <;> simp [retryWithBackoff, retryFrom, h1]
  · cases r1
    · refine ⟨?_, ?_, ?_⟩ <;> simp [retryWithBackoff, retryFrom, h1]
    · rcases h2 : outcomes 2 with v2 | r2
      · refine ⟨?_, ?_, ?_⟩ <;> norm_num [retryWithBackoff, retryFrom, h1, h2]
      · cases r2
        · refine ⟨?_, ?_, ?_⟩ <;> norm_num [retryWithBackoff, retryFrom, h1, h2]
        · rcases h3 : outcomes 3 with v3 | r3 <;>
            refine ⟨?_, ?_, ?_⟩ <;>
            norm_num [retryWithBackoff, retryFrom, h1, h2, h3]

/-- C9 witness: the amended theorem applied to the run whose first attempt
fails with a non-retryable error. -/
theorem c9_retry_amended_witness :
    retryWithBackoff (fun _ => .failure false) = ⟨none, 1, []⟩ :=
  (c9_retry_amended (fun _ => .failure false)).2.2 rfl

/-! ## Claim C10 -/

/-- C10: when prepareLiquidationParams returns early because the borrower
has no collateral or debt holdings or because the debt token is not among
the configured receipt tokens, the borrower stays in the preparing
sentinel set, every later direct preparation attempt for that borrower
returns none without changing the state whatever its would-be outcome,
and every batched preparation filters the borrower out. -/
theorem c10_preparing_sentinel_leak (st : PrepState) (user now : ℕ)
    (outcome : PrepOutcome)
    (hnotin : user ∉ st.preparing) (hnoprep : findEntry st.prepared user = none)
    (hstuck : outcome = .noHoldings ∨ outcome = .debtNotReceipt) :
    (prepareLiquidationParams st user now outcome).1 = none
    ∧ user ∈ (prepareLiquidationParams st user now outcome).2.preparing
    ∧ (∀ outcome2 now2,
        prepareLiquidationParams (prepareLiquidationParams st user now outcome).2
          user now2 outcome2 = (none, (prepareLiquidationParams st user now outcome).2))
    ∧ ∀ users, user ∉ batchPrepareFilter (prepareLiquidationParams st user now outcome).2 users := by
  have hguard : ¬(user ∈ st.preparing ∨ (findEntry st.prepared user).isSome) := by
    simp [hnotin, hnoprep]
  have hres : prepareLiquidationParams st user now outcome =
      (none, { st with preparing := user :: st.preparing }) := by
    rcases hstuck with h | h <;> subst h <;> simp [prepareLiquidationParams, hguard]
  rw [hres]
  refine ⟨rfl, List.mem_cons_self _ _, ?_, ?_⟩
  · intro outcome2 now2
    simp [prepareLiquidationParams]
  · intro users hmem
    have := (List.mem_filter.mp hmem).2
    simp at this

/-- C10 witness: the leak demonstrated from the empty state for borrower
7 with the no-holdings early return, followed by a direct retry that
would otherwise succeed and a batched attempt over borrowers 7 and 8. -/
theorem c10_preparing_sentinel_leak_witness :
    (prepareLiquidationParams ⟨[], [], []⟩ 7 0 .noHoldings).1 = none
    ∧ 7 ∈ (prepareLiquidationParams ⟨[], [], []⟩ 7 0 .noHoldings).2.preparing
    ∧ prepareLiquidationParams (prepareLiquidationParams ⟨[], [], []⟩ 7 0 .noHoldings).2
        7 99 (.buildOk 5) = (none, (prepareLiquidationParams ⟨[], [], []⟩ 7 0 .noHoldings).2)
    ∧ 7 ∉ batchPrepareFilter (prepareLiquidationParams ⟨[], [], []⟩ 7 0 .noHoldings).2 [7, 8] := by
  have h := c10_preparing_sentinel_leak ⟨[], [], []⟩ 7 0 .noHoldings (by simp) rfl (Or.inl rfl)
  exact ⟨h.1, h.2.1, h.2.2.1 (.buildOk 5) 99, h.2.2.2 [7, 8]⟩

/-- Setting one key leaves the lookup of a different key unchanged. -/
theorem findEntry_setEntry_ne {α : Type} (m : List (ℕ × α)) {w u : ℕ} (v : α)
    (h : w ≠ u) : findEntry (setEntry m w v) u = findEntry m u := by
  induction m with
  | nil => simp [setEntry, findEntry, h]
  | cons p rest ih =>
    obtain ⟨k, x⟩ := p
    by_cases hk : k = w
    · subst hk
      simp [setEntry, findEntry, h]
    · by_cases hku : k = u
      · simp [setEntry, hk, findEntry, hku, Ne.symm h]
      · simpa [setEntry, hk, findEntry, hku] using ih

/-- A key found after the full-scan insertion fold was in the map before
or is the user of one inserted observation. -/
theorem foldl_hot_insert_isSome (now : ℕ) :
    ∀ (L : List Obs) (m : HotMap) (u : ℕ),
      (findEntry (L.foldl
        (fun acc o => setEntry acc o.user ⟨o.healthFactor, o.totalDebtBase, now⟩) m) u).isSome →
      (findEntry m u).isSome ∨ ∃ o ∈ L, o.user = u := by
  intro L
  induction L with
  | nil =>
    intro m u h
    exact Or.inl h
  | cons o rest ih =>
    intro m u h
    rcases ih _ u h with h1 | h1
    · by_cases ho : o.user = u
      · exact Or.inr ⟨o, List.mem_cons_self _ _, ho⟩
      · rw [findEntry_setEntry_ne _ _ ho] at h1
        exact Or.inl h1
    · obtain ⟨o2, ho2, hu⟩ := h1
      exact Or.inr ⟨o2, List.mem_cons_of_mem _ ho2, hu⟩

/-- A successful lookup in a filtered association list succeeds in the
unfiltered list. -/
theorem findEntry_filter_isSome {α : Type} {l : List (ℕ × α)} {f : ℕ × α → Bool}
    {u : ℕ} (h : (findEntry (l.filter f) u).isSome) : (findEntry l u).isSome := by
  obtain ⟨v, hv⟩ := Option.isSome_iff_exists.mp h
  exact mem_findEntry_isSome (List.mem_of_mem_filter (findEntry_some_mem hv))

/-! ## Claim C3 -/

/-- C3 counterexample: along the concrete trace c3Trace, borrower 7 is
still a member of the hot tracker although the most recent scan of that
borrower observed health factor 1.5 with dust debt (outside the insertion
band on both counts), and the entry has not been refreshed within the
last five minutes of the latest step yet was not evicted. -/
theorem c3_hot_tracker_counterexample :
    findEntry (runTracker c3Trace) 7 = some ⟨15 * 10 ^ 17, 10 ^ 9, 1000500⟩
    ∧ lastObserved c3Trace 7 = some ⟨7, 15 * 10 ^ 17, 0⟩
    ∧ wideBand ⟨7, 15 * 10 ^ 17, 0⟩ = false
    ∧ wideBand ⟨7, 15 * 10 ^ 17, 10 ^ 9⟩ = false
    ∧ 1000500 + hotEvictionMs < 2000000 := by decide

/-- C3 amended: a borrower absent from the tracker enters it through a
full scan only when that scan observed the borrower with health factor in
the band from 1 inclusive to 1.10 exclusive and debt at least
MIN_DEBT_USD; and immediately after a full scan no tracker entry is older
than five minutes. Between full scans the quick check refreshes entries
without re-checking the band and evicts nothing, so membership is not
equivalent to the latest observation lying in the band. -/
theorem c3_hot_tracker_amended (m : HotMap) (obs : List Obs) (now user : ℕ)
    (hnone : findEntry m user = none) :
    ((findEntry (fullScanHotUpdate obs now m) user).isSome →
      ∃ o ∈ obs, o.user = user ∧ wideBand o = true)
    ∧ (∀ u e, findEntry (fullScanHotUpdate obs now m) u = some e →
        ¬ (e.lastUpdate + hotEvictionMs < now)) := by
  constructor
  · intro hsome
    unfold fullScanHotUpdate at hsome
    have h1 := findEntry_filter_isSome hsome
    rcases foldl_hot_insert_isSome now _ m user h1 with h2 | h2
    · rw [hnone] at h2
      simp at h2
    · obtain ⟨o, ho, hu⟩ := h2
      have := List.mem_filter.mp ho
      exact ⟨o, this.1, hu, this.2⟩
  · intro u e hfind
    have hmem := findEntry_some_mem hfind
    unfold fullScanHotUpdate at hmem
    have := (List.mem_filter.mp hmem).2
    simpa using this

/-- C3 witness: the amended theorem applied to a scan that observes
borrower 3 exactly at health factor 1 with debt at the minimum. -/
theorem c3_hot_tracker_amended_witness :
    ∃ o ∈ ([⟨3, WeiPerEther, 10 ^ 8⟩] : List Obs), o.user = 3 ∧ wideBand o = true :=
  (c3_hot_tracker_amended [] [⟨3, WeiPerEther, 10 ^ 8⟩] 5 3 rfl).1 (by decide)

/-! ## Claim C4 -/

/-- C4: a borrower whose blacklist entry has at least 3 failures and a
last attempt within the 5 minute TTL passes neither the full-scan
selection guards nor the quick-check liquidatable filter, and once the
entry is older than the TTL the skip decision no longer blocks the
borrower. -/
theorem c4_blacklisted_never_selected (bl : Blacklist) (now user : ℕ)
    (e : BlacklistEntry) (o : Obs) (obs : List Obs)
    (hfind : findEntry bl user = some e) :
    (maxFailuresBeforeBlacklist ≤ e.failures → now - e.lastAttempt ≤ blacklistTtlMs →
      (o.user = user → fullScanSelects bl now o = false)
      ∧ ∀ o2 ∈ quickCheckLiquidatable bl obs now, o2.user ≠ user)
    ∧ (blacklistTtlMs < now - e.lastAttempt → skipDecision bl user now = false) := by
  constructor
  · intro hfail httl
    have hs : skipDecision bl user now = true := by
      unfold skipDecision
      simp only [hfind]
      rw [if_neg (by omega)]
      simpa using hfail
    constructor
    · intro huser
      unfold fullScanSelects
      rw [huser, hs]
      simp
    · intro o2 hmem huser
      have hp := (List.mem_filter.mp hmem).2
      rw [huser, hs] at hp
      simp at hp
  · intro httl
    unfold skipDecision
    simp only [hfind]
    rw [if_pos httl]

/-- C4 witness: borrower 9 carries 3 recent failures; a liquidatable
observation of borrower 9 is rejected by the full-scan guards and absent
from the quick-check output. -/
theorem c4_blacklisted_never_selected_witness :
    (fullScanSelects [(9, ⟨3, 100⟩)] 200 ⟨9, 10 ^ 17, 10 ^ 9⟩ = false)
    ∧ ∀ o2 ∈ quickCheckLiquidatable [(9, ⟨3, 100⟩)] [⟨9, 10 ^ 17, 10 ^ 9⟩] 200,
        o2.user ≠ 9 := by
  have h := (c4_blacklisted_never_selected [(9, ⟨3, 100⟩)] 200 9 ⟨3, 100⟩
    ⟨9, 10 ^ 17, 10 ^ 9⟩ [⟨9, 10 ^ 17, 10 ^ 9⟩] rfl).1 (by decide) (by decide)
  exact ⟨h.1 rfl, h.2⟩

/-! ## Claim C6 -/

/-- The selected best option is a member of the candidate list. -/
theorem bestByProfitPerGas_mem :
    ∀ {l : List LadderOption} {b : LadderOption},
      bestByProfitPerGas l = some b → b ∈ l := by
  intro l
  induction l with
  | nil => intro b h; simp [bestByProfitPerGas] at h
  | cons r rest ih =>
    intro b h
    unfold bestByProfitPerGas at h
    cases hrest : bestByProfitPerGas rest with
    | none =>
      rw [hrest] at h
      simp at h
      simp [h]
    | some b2 =>
      rw [hrest] at h
      dsimp only at h
      split at h
      · cases h
        exact List.mem_cons_of_mem _ (ih hrest)
      · cases h
        exact List.mem_cons_self _ _

/-- A nonempty candidate list yields a best option. -/
theorem bestByProfitPerGas_isSome (r : LadderOption) (rest : List LadderOption) :
    (bestByProfitPerGas (r :: rest)).isSome := by
  unfold bestByProfitPerGas
  cases bestByProfitPerGas rest with
  | none => simp
  | some b2 => dsimp only; split <;> simp

/-- The selected best option maximizes profit per gas over the list. -/
theorem bestByProfitPerGas_max :
    ∀ {l : List LadderOption} {b : LadderOption},
      bestByProfitPerGas l = some b →
      ∀ r ∈ l, r.profitPerGas ≤ b.profitPerGas := by
  intro l
  induction l with
  | nil => intro b h; simp [bestByProfitPerGas] at h
  | cons r rest ih =>
    intro b h r2 hr2
    unfold bestByProfitPerGas at h
    cases hrest : bestByProfitPerGas rest with
    | none =>
      rw [hrest] at h
      simp at h
      rcases List.mem_cons.mp hr2 with h2 | h2
      · subst h2
        rw [h]
      · exfalso
        cases rest with
        | nil => simp at h2
        | cons x xs =>
          have hs := bestByProfitPerGas_isSome x xs
          rw [hrest] at hs
          simp at hs
    | some b2 =>
      rw [hrest] at h
      dsimp only at h
      rcases List.mem_cons.mp hr2 with h2 | h2
      · subst h2
        split at h
        · cases h; exact le_of_lt (by assumption)
        · cases h; exact le_rfl
      · have hle := ih hrest r2 h2
        split at h
        · cases h; exact hle
        · cases h
          exact le_trans hle (not_lt.mp (by assumption))

/-- C6: the adaptive sizer walks the ladder 10, 25, 50 in ascending order
applying the 0.1 percent buffer to each candidate, stops after the first
candidate whose estimated profit is not positive (so the evaluated list
is the corresponding explicit ladder portion), returns none exactly when
the first candidate is already non-profitable (which is the only way no
evaluated candidate has positive profit), and otherwise returns an
evaluated candidate of positive profit that maximizes profit per gas
among all evaluated candidates with positive profit. -/
theorem c6_adaptive_sizer (est : ℕ → ProfitEstimate) (userDebt : ℕ) :
    (findOptimalLiquidationPercentage est userDebt = none ↔
      (ladderOption est userDebt 10).estimatedProfit ≤ 0)
    ∧ (∀ b, findOptimalLiquidationPercentage est userDebt = some b →
        0 < b.estimatedProfit
        ∧ b ∈ evalLadder est userDebt liquidationPercentages
        ∧ ∀ r ∈ evalLadder est userDebt liquidationPercentages,
            0 < r.estimatedProfit → r.profitPerGas ≤ b.profitPerGas)
    ∧ (evalLadder est userDebt liquidationPercentages =
        if (ladderOption est userDebt 10).estimatedProfit ≤ 0 then
          [ladderOption est userDebt 10]
        else if (ladderOption est userDebt 25).estimatedProfit ≤ 0 then
          [ladderOption est userDebt 10, ladderOption est userDebt 25]
        else
          [ladderOption est userDebt 10, ladderOption est userDebt 25,
           ladderOption est userDebt 50]) := by
  by_cases h10 : (ladderOption est userDebt 10).estimatedProfit ≤ 0
  · have hres : evalLadder est userDebt liquidationPercentages =
        [ladderOption est userDebt 10] := by
      simp [liquidationPercentages, evalLadder, h10]
    refine ⟨?_, ?_, ?_⟩
    · unfold findOptimalLiquidationPercentage
      rw [hres]
      simp [h10]
    · intro b hb
      unfold findOptimalLiquidationPercentage at hb
      rw [hres] at hb
      simp [h10] at hb
    · rw [hres, if_pos h10]
  · have hres : evalLadder est userDebt liquidationPercentages =
        ladderOption est userDebt 10 :: evalLadder est userDebt [25, 50] := by
      simp [liquidationPercentages, evalLadder, h10]
    have hall : (evalLadder est userDebt liquidationPercentages).all
        (fun r => r.estimatedProfit ≤ 0) = false := by
      cases hcase : (evalLadder est userDebt liquidationPercentages).all
          (fun r => r.estimatedProfit ≤ 0) with
      | false => rfl
      | true =>
        have := List.all_eq_true.mp hcase (ladderOption est userDebt 10)
          (by rw [hres]; exact List.mem_cons_self _ _)
        simp at this
        exact absurd this h10
    have hfilterMem : ladderOption est userDebt 10 ∈
        (evalLadder est userDebt liquidationPercentages).filter
          (fun r => 0 < r.estimatedProfit) := by
      refine List.mem_filter.mpr ⟨?_, ?_⟩
      · rw [hres]; exact List.mem_cons_self _ _
      · simpa using not_le.mp h10
    refine ⟨?_, ?_, ?_⟩
    · constructor
      · intro hnone
        exfalso
        unfold findOptimalLiquidationPercentage at hnone
        rw [hall] at hnone
        simp only [Bool.false_eq_true, if_false] at hnone
        cases hfl : (evalLadder est userDebt liquidationPercentages).filter
            (fun r => 0 < r.estimatedProfit) with
        | nil => rw [hfl] at hfilterMem; simp at hfilterMem
        | cons x xs =>
          rw [hfl] at hnone
          have := bestByProfitPerGas_isSome x xs
          rw [hnone] at this
          simp at this
      · intro h
        exact absurd h h10
    · intro b hb
      unfold findOptimalLiquidationPercentage at hb
      rw [hall] at hb
      simp only [Bool.false_eq_true, if_false] at hb
      have hmemf := bestByProfitPerGas_mem hb
      have hmf := List.mem_filter.mp hmemf
      refine ⟨by simpa using hmf.2, hmf.1, ?_⟩
      intro r hr hpos
      exact bestByProfitPerGas_max hb r
        (List.mem_filter.mpr ⟨hr, by simpa using hpos⟩)
    · rw [if_neg h10]
      by_cases h25 : (ladderOption est userDebt 25).estimatedProfit ≤ 0
      · rw [if_pos h25, hres]
        simp [evalLadder, h25]
      · rw [if_neg h25, hres]
        simp [evalLadder, h25]

/-- C6 witness: for the constant estimator every ladder candidate earns 1
USD at gas 2; the sizer selects the 10 percent candidate, which is
evaluated, profitable, and of maximal profit per gas. -/
theorem c6_adaptive_sizer_witness :
    0 < (ladderOption constEstimate 1000 10).estimatedProfit
    ∧ ladderOption constEstimate 1000 10 ∈ evalLadder constEstimate 1000 liquidationPercentages
    ∧ ∀ r ∈ evalLadder constEstimate 1000 liquidationPercentages,
        0 < r.estimatedProfit →
        r.profitPerGas ≤ (ladderOption constEstimate 1000 10).profitPerGas :=
  (c6_adaptive_sizer constEstimate 1000).2.1 (ladderOption constEstimate 1000 10) (by
    unfold findOptimalLiquidationPercentage
    norm_num [evalLadder, liquidationPercentages, ladderOption, constEstimate,
      bestByProfitPerGas, List.filter, List.all])

end MoreBot
